import Mathlib

/-!
Shallow embedding of `src/RFIDReader.py` (Karol-NMD/RFID_Reader).

The embedded parts are:
  * the Dedup Buffer `SEEN_TAGS = deque(maxlen=100)` (line 23), modelled as a
    list with a `dequeAppend` operation that drops the oldest elements when the
    capacity is exceeded;
  * the Dedup Set `seen_epcs = set()` — a local variable of the ingestion
    thread `process_tags_console` (line 84), never touched by `clear_tag_data`;
  * the per-tag body of `process_tags_console` (lines 87-93), exposed here as
    `offer` (dedup decision) and `process_tags_console_step` (decision plus
    console notification);
  * `clear_tag_data` (lines 57-59): clears `SEEN_TAGS` only;
  * the lifecycle commands `start_reading` (62-66), `stop_reading` (69-72),
    `print_reader_state` (75-79), with the sllurp driver abstracted as a
    `Reader` whose calls may raise;
  * the driver tag-report callback `tag_report_cb` (33-45);
  * the command dispatch loop `user_interface` (102-118) and the graceful
    shutdown of `main` (193-197).

Effects (prints, driver calls) are collected in `Eff` traces; a Python
exception that a function does not catch is surfaced as a `some DriverErr.err`
component of the result, together with the global state as it stands at the
moment the exception propagates.
-/

namespace RFIDReader

/-- A parsed tag record, as built by `tag_report_cb` (lines 37-42):
`epc` from `tag["EPC"].decode("ascii")`, the other three from `tag.get(...)`
and hence `none` when absent. -/
structure TagRecord where
  epc : String
  channel : Option Nat
  last_seen : Option Nat
  seen_count : Option Nat
deriving DecidableEq, Repr

/-- The dedup state: `seen_epcs` is the local set of `process_tags_console`
(line 84), `SEEN_TAGS` the global `deque(maxlen=100)` (line 23), oldest first. -/
structure DedupState where
  seen_epcs : List String
  SEEN_TAGS : List TagRecord
deriving DecidableEq, Repr

/-- State at process start / ingestion-thread start: both empty. -/
def initState : DedupState := ⟨[], []⟩

inductive OfferResult
  | accepted
  | duplicate
deriving DecidableEq, Repr

/-- `deque(maxlen=C).append(t)`: append on the right, drop from the left
until the length is at most `C`. -/
def dequeAppend (C : Nat) (buf : List TagRecord) (t : TagRecord) : List TagRecord :=
  let b := buf ++ [t]
  if C < b.length then b.drop (b.length - C) else b

/-- Lines 89-91 of `process_tags_console`: if the EPC is already in
`seen_epcs` the record is dropped (duplicate); otherwise the EPC is added to
`seen_epcs` and the record appended to `SEEN_TAGS`. -/
def offer (C : Nat) (s : DedupState) (t : TagRecord) : OfferResult × DedupState :=
  if t.epc ∈ s.seen_epcs then (OfferResult.duplicate, s)
  else (OfferResult.accepted,
        { seen_epcs := t.epc :: s.seen_epcs,
          SEEN_TAGS := dequeAppend C s.SEEN_TAGS t })

/-- `clear_tag_data` (lines 57-59): `SEEN_TAGS.clear()` only. The local
`seen_epcs` of the ingestion thread is untouched. -/
def clear_tag_data (s : DedupState) : DedupState :=
  { s with SEEN_TAGS := [] }

/-- An operation on the dedup state: one dequeued tag offered by the
ingestion loop, or one `clear_tag_data` call. -/
inductive Op
  | offerOp (t : TagRecord)
  | clearOp
deriving DecidableEq, Repr

def step (C : Nat) (s : DedupState) : Op → DedupState
  | Op.offerOp t => (offer C s t).2
  | Op.clearOp => clear_tag_data s

/-- Run a sequence of offers and clears. -/
def run (C : Nat) (s : DedupState) : List Op → DedupState
  | [] => s
  | op :: ops => run C (step C s op) ops

/-- The offer results produced along a sequence of operations. -/
def runResults (C : Nat) (s : DedupState) : List Op → List OfferResult
  | [] => []
  | Op.offerOp t :: ops => (offer C s t).1 :: runResults C (offer C s t).2 ops
  | Op.clearOp :: ops => runResults C (clear_tag_data s) ops

/-- Records appended to `SEEN_TAGS` since the most recent clear (or since the
start when no clear occurred), accumulated left to right. -/
def appendedSinceClearAux (C : Nat) (s : DedupState) (acc : List TagRecord) :
    List Op → List TagRecord
  | [] => acc
  | Op.offerOp t :: ops =>
      appendedSinceClearAux C (offer C s t).2
        (acc ++ if (offer C s t).1 = OfferResult.accepted then [t] else []) ops
  | Op.clearOp :: ops => appendedSinceClearAux C (clear_tag_data s) [] ops

def appendedSinceClear (C : Nat) (ops : List Op) : List TagRecord :=
  appendedSinceClearAux C initState [] ops

/-- All records ever appended to `SEEN_TAGS` along the run (clears do not
reset this list). -/
def appendedEver (C : Nat) (s : DedupState) : List Op → List TagRecord
  | [] => []
  | Op.offerOp t :: ops =>
      (if (offer C s t).1 = OfferResult.accepted then [t] else [])
        ++ appendedEver C (offer C s t).2 ops
  | Op.clearOp :: ops => appendedEver C (clear_tag_data s) ops

/-- Case split lemma: offering an already-seen EPC is a duplicate that leaves
the state untouched. -/
theorem offer_dup (C : Nat) (s : DedupState) (t : TagRecord) (h : t.epc ∈ s.seen_epcs) :
    offer C s t = (OfferResult.duplicate, s) := by
  simp [offer, h]

/-- Case split lemma: offering an unseen EPC is accepted, inserts the EPC into
`seen_epcs` and appends the record to `SEEN_TAGS`. -/
theorem offer_acc (C : Nat) (s : DedupState) (t : TagRecord) (h : t.epc ∉ s.seen_epcs) :
    offer C s t
      = (OfferResult.accepted, ⟨t.epc :: s.seen_epcs, dequeAppend C s.SEEN_TAGS t⟩) := by
  simp [offer, h]

/-- Characterisation of the Dedup Set after a run: an EPC is in the final
`seen_epcs` iff it was in the initial one or some offered record carries it.
Clears never remove EPCs, offers only add them. -/
theorem seen_run_iff (C : Nat) (ops : List Op) (s : DedupState) (epc : String) :
    epc ∈ (run C s ops).seen_epcs ↔
      epc ∈ s.seen_epcs ∨ ∃ t, Op.offerOp t ∈ ops ∧ t.epc = epc := by
  induction ops generalizing s with
  | nil => simp [run]
  | cons op ops ih =>
    cases op with
    | clearOp =>
      rw [run, step, ih]
      simp [clear_tag_data]
    | offerOp t =>
      by_cases h : t.epc ∈ s.seen_epcs
      · rw [run, step, offer_dup C s t h, ih]
        simp only [List.mem_cons, Op.offerOp.injEq]
        constructor
        · rintro (hs | ⟨u, hu, he⟩)
          · exact Or.inl hs
          · exact Or.inr ⟨u, Or.inr hu, he⟩
        · rintro (hs | ⟨u, (rfl | hu), he⟩)
          · exact Or.inl hs
          · exact Or.inl (he ▸ h)
          · exact Or.inr ⟨u, hu, he⟩
      · rw [run, step, offer_acc C s t h, ih]
        simp only [List.mem_cons, Op.offerOp.injEq]
        constructor
        · rintro ((hs | hs) | ⟨u, hu, he⟩)
          · exact Or.inr ⟨t, Or.inl rfl, hs.symm⟩
          · exact Or.inl hs
          · exact Or.inr ⟨u, Or.inr hu, he⟩
        · rintro (hs | ⟨u, (rfl | hu), he⟩)
          · exact Or.inl (Or.inr hs)
          · exact Or.inl (Or.inl he.symm)
          · exact Or.inr ⟨u, hu, he⟩

/-- Characterisation of records ever appended to the buffer: a record with a
given EPC was appended at some point iff that EPC was offered and was not in
the initial Dedup Set. -/
theorem appendedEver_mem_iff (C : Nat) (ops : List Op) (s : DedupState) (epc : String) :
    (∃ t, t ∈ appendedEver C s ops ∧ t.epc = epc) ↔
      ((∃ t, Op.offerOp t ∈ ops ∧ t.epc = epc) ∧ epc ∉ s.seen_epcs) := by
  induction ops generalizing s with
  | nil => simp [appendedEver]
  | cons op ops ih =>
    cases op with
    | clearOp =>
      rw [appendedEver, ih]
      simp [clear_tag_data]
    | offerOp t =>
      by_cases h : t.epc ∈ s.seen_epcs
      · rw [appendedEver, offer_dup C s t h]
        simp only [List.nil_append, ih, List.mem_cons, Op.offerOp.injEq,
          reduceCtorEq, if_false]
        constructor
        · rintro ⟨⟨u, hu, he⟩, hn⟩
          exact ⟨⟨u, Or.inr hu, he⟩, hn⟩
        · rintro ⟨⟨u, (rfl | hu), he⟩, hn⟩
          · exact absurd (he ▸ h) hn
          · exact ⟨⟨u, hu, he⟩, hn⟩
      · rw [appendedEver, offer_acc C s t h]
        simp only [if_pos, List.singleton_append, List.mem_cons, Op.offerOp.injEq]
        constructor
        · rintro ⟨u, (rfl | hu), he⟩
          · exact ⟨⟨u, Or.inl rfl, he⟩, he ▸ h⟩
          · rcases (ih _).1 ⟨u, hu, he⟩ with ⟨⟨v, hv, hve⟩, hn⟩
            refine ⟨⟨v, Or.inr hv, hve⟩, fun hc => hn (List.mem_cons_of_mem _ hc)⟩
        · rintro ⟨⟨u, (rfl | hu), he⟩, hn⟩
          · exact ⟨u, Or.inl rfl, he⟩
          · by_cases hte : t.epc = epc
            · exact ⟨t, Or.inl rfl, hte⟩
            · rcases (ih ⟨t.epc :: s.seen_epcs, dequeAppend C s.SEEN_TAGS t⟩).2 ⟨⟨u, hu, he⟩, by
                show epc ∉ t.epc :: s.seen_epcs
                simp only [List.mem_cons]
                rintro (hc | hc)
                · exact hte hc.symm
                · exact hn hc⟩ with ⟨v, hv, hve⟩
              exact ⟨v, Or.inr hv, hve⟩

/-- Concrete records for the spec scenario: EPC "A" with seen-counts 1, 2, 3. -/
def tagA1 : TagRecord := ⟨"A", none, none, some 1⟩
def tagA2 : TagRecord := ⟨"A", none, none, some 2⟩
def tagA3 : TagRecord := ⟨"A", none, none, some 3⟩

/-- The C1 scenario as an operation sequence. -/
def opsC1 : List Op := [Op.offerOp tagA1, Op.offerOp tagA2, Op.clearOp, Op.offerOp tagA3]

/-- C1 counterexample: in the code, `clear_tag_data` empties only `SEEN_TAGS`,
not the ingestion thread's local `seen_epcs`, so the post-clear offer of EPC
"A" is still a duplicate and the buffer ends empty — not `[accepted,
duplicate, accepted]` with one record, as the claim states. -/
theorem c1_counterexample :
    runResults 100 initState opsC1
      = [OfferResult.accepted, OfferResult.duplicate, OfferResult.duplicate] ∧
    runResults 100 initState opsC1
      ≠ [OfferResult.accepted, OfferResult.duplicate, OfferResult.accepted] ∧
    (run 100 initState opsC1).SEEN_TAGS = [] ∧
    (run 100 initState opsC1).SEEN_TAGS.length ≠ 1 := by
  decide

/-- C1 (amended): after `clear()`, the Dedup Buffer is empty but the Dedup Set
is unchanged, so the next offer of a previously accepted EPC is rejected: the
sequence offer(A, seen=1), offer(A, seen=2), clear(), offer(A, seen=3) yields
accepted, duplicate, duplicate, and the buffer afterwards is empty. -/
theorem c1_amended :
    runResults 100 initState opsC1
      = [OfferResult.accepted, OfferResult.duplicate, OfferResult.duplicate] ∧
    run 100 initState opsC1
      = { seen_epcs := ["A"], SEEN_TAGS := [] } := by
  decide

/-- C2 counterexample: after offer(A) then clear(), "A" is still in the Dedup
Set although nothing has been appended to the Dedup Buffer since the last
clear — the claimed iff-invariant fails. -/
theorem c2_counterexample :
    "A" ∈ (run 100 initState [Op.offerOp tagA1, Op.clearOp]).seen_epcs ∧
    appendedSinceClear 100 [Op.offerOp tagA1, Op.clearOp] = [] := by
  decide

/-- C2 (amended): at every point between operations, an EPC is in the Dedup
Set iff a TagRecord with that EPC has been appended to the Dedup Buffer since
process start (clears reset the buffer but never the set), for every sequence
of offer and clear calls and every capacity, including after evictions. -/
theorem c2_amended (C : Nat) (ops : List Op) (epc : String) :
    epc ∈ (run C initState ops).seen_epcs ↔
      ∃ t, t ∈ appendedEver C initState ops ∧ t.epc = epc := by
  rw [seen_run_iff, appendedEver_mem_iff]
  simp [initState]

/-- Length of a bounded-deque append: starting below or at capacity, the
length grows by one and is then capped at `C`. -/
theorem dequeAppend_length (C : Nat) (buf : List TagRecord) (t : TagRecord)
    (h : buf.length ≤ C) :
    (dequeAppend C buf t).length = min C (buf.length + 1) := by
  rw [dequeAppend]
  by_cases hC : C < buf.length + 1
  · have hb : (buf ++ [t]).length = buf.length + 1 := by simp
    rw [if_pos (by rw [hb]; exact hC), List.length_drop, hb]
    omega
  · rw [if_neg (by simp; omega)]
    simp
    omega

/-- Membership in a bounded-deque append comes from the old buffer or the new
element. -/
theorem mem_dequeAppend (C : Nat) (buf : List TagRecord) (t : TagRecord)
    (x : TagRecord) (h : x ∈ dequeAppend C buf t) : x ∈ buf ++ [t] := by
  rw [dequeAppend] at h
  by_cases hC : C < (buf ++ [t]).length
  · rw [if_pos hC] at h
    exact List.drop_subset _ _ h
  · rwa [if_neg hC] at h

/-- FIFO eviction: appending to a full bounded deque drops exactly the oldest
element (the head) and appends the new one at the tail. -/
theorem dequeAppend_full (C : Nat) (buf : List TagRecord) (t : TagRecord)
    (hC : 0 < C) (h : buf.length = C) :
    dequeAppend C buf t = buf.tail ++ [t] := by
  rw [dequeAppend]
  have hb : (buf ++ [t]).length = C + 1 := by simp [h]
  rw [if_pos (by omega), hb]
  have h1 : C + 1 - C = 1 := by omega
  rw [h1, List.drop_append_of_le_length (by omega), List.drop_one]

/-- Invariant transport for the capacity claim: if the buffer length matches
the capped count of records accepted since the last clear, it still does after
any further operations. -/
theorem run_length_aux (C : Nat) (ops : List Op) (s : DedupState) (acc : List TagRecord)
    (h : s.SEEN_TAGS.length = min C acc.length) :
    (run C s ops).SEEN_TAGS.length
      = min C (appendedSinceClearAux C s acc ops).length := by
  induction ops generalizing s acc with
  | nil => exact h
  | cons op ops ih =>
    cases op with
    | clearOp =>
      rw [run, step, appendedSinceClearAux]
      exact ih (clear_tag_data s) [] (by simp [clear_tag_data])
    | offerOp t =>
      by_cases hmem : t.epc ∈ s.seen_epcs
      · rw [run, step, offer_dup C s t hmem, appendedSinceClearAux, offer_dup C s t hmem]
        simp only [reduceCtorEq, if_false, List.append_nil]
        exact ih s acc h
      · rw [run, step, offer_acc C s t hmem, appendedSinceClearAux, offer_acc C s t hmem]
        simp only [if_pos]
        refine ih _ _ ?_
        show (dequeAppend C s.SEEN_TAGS t).length = min C (acc ++ [t]).length
        rw [dequeAppend_length C s.SEEN_TAGS t (by omega), h]
        simp
        omega

def tagB : TagRecord := ⟨"B", some 1, some 10, some 1⟩
def tagD : TagRecord := ⟨"D", some 2, some 20, some 2⟩

/-- Three distinct EPCs offered in a row: with capacity 2 this evicts "A". -/
def opsEvict : List Op := [Op.offerOp tagA1, Op.offerOp tagB, Op.offerOp tagD]

/-- C5: for every sequence of offer and clear calls the Dedup Buffer length
equals min(C, number of accepted offers since the last clear), hence never
exceeds C; and an accepted offer at full capacity evicts exactly the oldest
record still present (the head of the buffer). -/
theorem c5_capacity_fifo (C : Nat) (ops : List Op) (hC : 0 < C) :
    (run C initState ops).SEEN_TAGS.length = min C (appendedSinceClear C ops).length ∧
    (run C initState ops).SEEN_TAGS.length ≤ C ∧
    ∀ buf t, buf.length = C → dequeAppend C buf t = buf.tail ++ [t] := by
  refine ⟨run_length_aux C ops initState [] (by simp [initState]), ?_,
    fun buf t h => dequeAppend_full C buf t hC h⟩
  rw [run_length_aux C ops initState [] (by simp [initState])]
  omega

/-- Witness for C5 at capacity 2 and three accepted offers. -/
theorem c5_witness :
    0 < 2 ∧
    (run 2 initState opsEvict).SEEN_TAGS.length
      = min 2 (appendedSinceClear 2 opsEvict).length :=
  ⟨by decide, (c5_capacity_fifo 2 opsEvict (by decide)).1⟩

/-- C6 counterexample: with capacity 2, after accepting "A", "B", "D" the
record for "A" is evicted from the buffer and a later offer of "A" is indeed
rejected — but, contrary to the claim, a clear() does not make "A" eligible
for re-acceptance either: after the clear the offer of "A" is still a
duplicate. -/
theorem c6_counterexample :
    (run 2 initState opsEvict).SEEN_TAGS.map TagRecord.epc = ["B", "D"] ∧
    (offer 2 (run 2 initState opsEvict) tagA2).1 = OfferResult.duplicate ∧
    (offer 2 (run 2 initState (opsEvict ++ [Op.clearOp])) tagA3).1
      = OfferResult.duplicate := by
  decide

/-- C6 (amended): eviction does not remove the evicted EPC from the Dedup Set
— after C+1 distinct accepted offers at C = 2 the oldest record is gone from
the buffer yet a later offer of that EPC is rejected as a duplicate; but
clear() does not make an EPC eligible for re-acceptance either: no operation
ever removes an EPC from the set, so once accepted an EPC is rejected for
the rest of the run. -/
theorem c6_amended (C : Nat) (s : DedupState) (ops : List Op) (epc : String)
    (h : epc ∈ s.seen_epcs) :
    epc ∈ (run C s ops).seen_epcs ∧
    (run 2 initState opsEvict).SEEN_TAGS.map TagRecord.epc = ["B", "D"] ∧
    (offer 2 (run 2 initState opsEvict) tagA2).1 = OfferResult.duplicate ∧
    runResults 2 initState (opsEvict ++ [Op.clearOp, Op.offerOp tagA3])
      = [OfferResult.accepted, OfferResult.accepted, OfferResult.accepted,
         OfferResult.duplicate] := by
  exact ⟨(seen_run_iff C ops s epc).2 (Or.inl h), by decide, by decide, by decide⟩

/-- Witness for C6 at a concrete state containing "A". -/
theorem c6_witness :
    "A" ∈ (⟨["A"], []⟩ : DedupState).seen_epcs ∧
    "A" ∈ (run 2 (⟨["A"], []⟩ : DedupState) [Op.clearOp]).seen_epcs :=
  ⟨by decide, (c6_amended 2 ⟨["A"], []⟩ [Op.clearOp] "A" (by decide)).1⟩

/-- C7 counterexample: the state reached by the serialized interleaving
offer("A") then clear() — one of the interleavings the claim quantifies over —
has "A" in the Dedup Set but absent from the Dedup Buffer. -/
theorem c7_counterexample :
    "A" ∈ (run 100 initState [Op.offerOp tagA1, Op.clearOp]).seen_epcs ∧
    "A" ∉ (run 100 initState [Op.offerOp tagA1, Op.clearOp]).SEEN_TAGS.map
      TagRecord.epc := by
  decide

/-- Buffer-to-set inclusion is preserved by every operation. -/
theorem buf_sub_seen_aux (C : Nat) (ops : List Op) (s : DedupState)
    (h : ∀ t ∈ s.SEEN_TAGS, t.epc ∈ s.seen_epcs) :
    ∀ t ∈ (run C s ops).SEEN_TAGS, t.epc ∈ (run C s ops).seen_epcs := by
  induction ops generalizing s with
  | nil => exact h
  | cons op ops ih =>
    cases op with
    | clearOp =>
      rw [run, step]
      exact ih (clear_tag_data s) (by simp [clear_tag_data])
    | offerOp t =>
      by_cases hmem : t.epc ∈ s.seen_epcs
      · rw [run, step, offer_dup C s t hmem]
        exact ih s h
      · rw [run, step, offer_acc C s t hmem]
        refine ih _ ?_
        intro u hu
        show u.epc ∈ t.epc :: s.seen_epcs
        rcases List.mem_append.1 (mem_dequeAppend C s.SEEN_TAGS t u hu) with hb | hb
        · exact List.mem_cons_of_mem _ (h u hb)
        · rw [List.mem_singleton] at hb
          subst hb
          exact List.mem_cons_self _ _

/-- C7 (amended): there is no lock, and a state with an EPC in the Dedup Set
but absent from the Dedup Buffer is reachable (offer then clear); the
direction that does hold in every reachable state is that the EPC of every
buffered record is in the Dedup Set. -/
theorem c7_amended (C : Nat) (ops : List Op) (t : TagRecord)
    (h : t ∈ (run C initState ops).SEEN_TAGS) :
    t.epc ∈ (run C initState ops).seen_epcs :=
  buf_sub_seen_aux C ops initState (by simp [initState]) t h

/-- Witness for C7 after a single accepted offer. -/
theorem c7_witness :
    tagA1 ∈ (run 100 initState [Op.offerOp tagA1]).SEEN_TAGS ∧
    tagA1.epc ∈ (run 100 initState [Op.offerOp tagA1]).seen_epcs :=
  ⟨by decide, c7_amended 100 [Op.offerOp tagA1] tagA1 (by decide)⟩

/-- The sllurp driver session as seen through `READER`: whether
`is_alive()` holds, whether `llrp.startInventory()` and `llrp.stopPolitely()`
raise when called, and the name `LLRPReaderState.getStateName` reports. -/
structure Reader where
  alive : Bool
  startRaises : Bool
  stopRaises : Bool
  stateName : String
deriving DecidableEq, Repr

/-- A Python exception escaping a driver call. -/
inductive DriverErr
  | err
deriving DecidableEq, Repr

/-- Observable effects: console prints, the new-tag notification line of
line 93 (carrying EPC, channel, seen-count and timestamp; string formatting
abstracted), and driver calls. -/
inductive Eff
  | printMsg (msg : String)
  | notifyLine (t : TagRecord)
  | callStartInventory
  | callStopPolitely
  | callDisconnect
deriving DecidableEq, Repr

def clearMsg : String := "🧹 Tag data cleared."

/-- `start_reading` (lines 62-66): when `READER` exists and is alive it calls
`clear_tag_data()` and then `READER.llrp.startInventory()`; there is no
try/except, so a raise from the driver propagates (`some DriverErr.err`) with
the clear already applied. When not connected it does nothing at all. -/
def start_reading (r : Option Reader) (s : DedupState) :
    DedupState × List Eff × Option DriverErr :=
  match r with
  | some rd =>
    if rd.alive then
      if rd.startRaises then
        (clear_tag_data s, [Eff.printMsg clearMsg, Eff.callStartInventory],
         some DriverErr.err)
      else
        (clear_tag_data s,
         [Eff.printMsg clearMsg, Eff.callStartInventory,
          Eff.printMsg "📡 Started inventory."], none)
    else (s, [], none)
  | none => (s, [], none)

/-- `stop_reading` (lines 69-72): when alive it calls
`READER.llrp.stopPolitely()` with no try/except; otherwise it does nothing. -/
def stop_reading (r : Option Reader) (s : DedupState) :
    DedupState × List Eff × Option DriverErr :=
  match r with
  | some rd =>
    if rd.alive then
      if rd.stopRaises then (s, [Eff.callStopPolitely], some DriverErr.err)
      else (s, [Eff.callStopPolitely, Eff.printMsg "🛑 Stopped inventory."], none)
    else (s, [], none)
  | none => (s, [], none)

/-- `print_reader_state` (lines 75-79). -/
def print_reader_state (r : Option Reader) : List Eff :=
  match r with
  | some rd =>
    if rd.alive then [Eff.printMsg ("📊 Reader state: " ++ rd.stateName)]
    else [Eff.printMsg "🔌 Reader not connected."]
  | none => [Eff.printMsg "🔌 Reader not connected."]

/-- `cmd = input(">> ").strip().lower()` (line 105): strip surrounding
whitespace, lower-case the rest. -/
def normalizeCmd (c : String) : String :=
  String.mk
    (((c.data.dropWhile Char.isWhitespace).reverse.dropWhile
        Char.isWhitespace).reverse.map Char.toLower)

def promptEff : Eff := Eff.printMsg "Commands: [start] [stop] [clear] [state] [exit]"

/-- Result of the `user_interface` loop: final dedup state, effect trace,
whether the loop was left through the `exit` branch, and a driver exception
that escaped the loop (the Python loop has no try/except around the command
calls). -/
structure UIResult where
  state : DedupState
  effs : List Eff
  exited : Bool
  err : Option DriverErr
deriving DecidableEq, Repr

/-- `user_interface` (lines 102-118) on a finite script of input lines: each
iteration prints the command menu, reads a line, applies
`.strip().lower()` (embedded as `normalizeCmd`) and dispatches. Unknown input prints an error notice and
loops. An exhausted script leaves the loop blocked on input (`exited :=
false`). -/
def user_interface (r : Option Reader) (s : DedupState) : List String → UIResult
  | [] => ⟨s, [promptEff], false, none⟩
  | c :: cs =>
    let cmd := normalizeCmd c
    if cmd = "start" then
      match start_reading r s with
      | (s1, effs, some e) => ⟨s1, promptEff :: effs, false, some e⟩
      | (s1, effs, none) =>
        let q := user_interface r s1 cs
        ⟨q.state, (promptEff :: effs) ++ q.effs, q.exited, q.err⟩
    else if cmd = "stop" then
      match stop_reading r s with
      | (s1, effs, some e) => ⟨s1, promptEff :: effs, false, some e⟩
      | (s1, effs, none) =>
        let q := user_interface r s1 cs
        ⟨q.state, (promptEff :: effs) ++ q.effs, q.exited, q.err⟩
    else if cmd = "clear" then
      let q := user_interface r (clear_tag_data s) cs
      ⟨q.state, (promptEff :: [Eff.printMsg clearMsg]) ++ q.effs, q.exited, q.err⟩
    else if cmd = "state" then
      let q := user_interface r s cs
      ⟨q.state, (promptEff :: print_reader_state r) ++ q.effs, q.exited, q.err⟩
    else if cmd = "exit" then
      match stop_reading r s with
      | (s1, effs, some e) => ⟨s1, promptEff :: effs, false, some e⟩
      | (s1, effs, none) => ⟨s1, promptEff :: effs, true, none⟩
    else
      let q := user_interface r s cs
      ⟨q.state, (promptEff :: [Eff.printMsg "❓ Unknown command."]) ++ q.effs,
       q.exited, q.err⟩

/-- The graceful-shutdown block of `main` (lines 193-197): after
`user_interface` returns, when the reader is alive, `stopPolitely()` then
`disconnect()` then a farewell print. -/
def main_shutdown (r : Option Reader) : List Eff × Option DriverErr :=
  match r with
  | some rd =>
    if rd.alive then
      if rd.stopRaises then ([Eff.callStopPolitely], some DriverErr.err)
      else ([Eff.callStopPolitely, Eff.callDisconnect,
             Eff.printMsg "👋 Reader disconnected. Exiting..."], none)
    else ([], none)
  | none => ([], none)

/-- `main` from the launch of the dispatch loop: run `user_interface`, then,
when the loop was left normally, the graceful-shutdown block. -/
def main_after_connect (r : Option Reader) (s : DedupState) (cmds : List String) :
    DedupState × List Eff × Option DriverErr :=
  let q := user_interface r s cmds
  match q.err with
  | some e => (q.state, q.effs, some e)
  | none =>
    if q.exited then
      let p := main_shutdown r
      (q.state, q.effs ++ p.1, p.2)
    else (q.state, q.effs, none)

/-- An alive session whose `startInventory` raises. -/
def rdStartRaise : Reader := ⟨true, true, false, "CONNECTED"⟩

/-- An alive session whose `stopPolitely` raises. -/
def rdStopRaise : Reader := ⟨true, false, true, "CONNECTED"⟩

/-- An alive session whose driver calls succeed. -/
def rdOK : Reader := ⟨true, false, false, "CONNECTED"⟩

/-- A dead session: `is_alive()` is false. -/
def rdDead : Reader := ⟨false, false, false, "DISCONNECTED"⟩

/-- C3 counterexample: `start_reading` and `stop_reading` have no try/except,
so a driver exception escapes them (`some DriverErr.err`) instead of being
caught and logged, and it aborts the command loop: after a raising `start`
the following `state` command is never processed. -/
theorem c3_counterexample :
    (start_reading (some rdStartRaise) initState).2.2 = some DriverErr.err ∧
    (stop_reading (some rdStopRaise) initState).2.2 = some DriverErr.err ∧
    (user_interface (some rdStartRaise) initState ["start", "state"]).err
      = some DriverErr.err ∧
    Eff.printMsg ("📊 Reader state: " ++ rdStartRaise.stateName) ∉
      (user_interface (some rdStartRaise) initState ["start", "state"]).effs := by
  decide

/-- C3 (amended): a driver exception during `start()` or `stop()` is not
caught — it propagates out of the command function; at the moment it
propagates the Dedup Set and Buffer are exactly their state before the
driver call: unchanged for `stop()`, and for `start()` equal to the result of
the `clear()` that precedes the driver call (not rolled back). -/
theorem c3_amended (rd : Reader) (s : DedupState) (halive : rd.alive = true) :
    (rd.startRaises = true →
      start_reading (some rd) s
        = (clear_tag_data s, [Eff.printMsg clearMsg, Eff.callStartInventory],
           some DriverErr.err)) ∧
    (rd.stopRaises = true →
      stop_reading (some rd) s = (s, [Eff.callStopPolitely], some DriverErr.err)) := by
  constructor
  · intro h
    simp [start_reading, halive, h]
  · intro h
    simp [stop_reading, halive, h]

/-- Witness for C3 at a concrete raising driver. -/
theorem c3_witness :
    rdStartRaise.alive = true ∧ rdStartRaise.startRaises = true ∧
    start_reading (some rdStartRaise) initState
      = (clear_tag_data initState,
         [Eff.printMsg clearMsg, Eff.callStartInventory], some DriverErr.err) :=
  ⟨rfl, rfl, (c3_amended rdStartRaise initState rfl).1 rfl⟩

/-- C4 counterexample: on a missing or dead session, `start_reading` and
`stop_reading` produce no effect at all — in particular no visible no-op
notice is printed, contrary to the claim. -/
theorem c4_counterexample :
    (start_reading none initState).2.1 = [] ∧
    (stop_reading none initState).2.1 = [] ∧
    (start_reading (some rdDead) initState).2.1 = [] ∧
    (stop_reading (some rdDead) initState).2.1 = [] := by
  decide

/-- C4 (amended): calling `start()` or `stop()` when no live driver session
exists (READER is None or not alive) performs no driver call and leaves the
Dedup Set and Buffer unchanged, but it is a silent no-op: no notice is
printed. -/
theorem c4_amended (r : Option Reader) (s : DedupState)
    (h : r = none ∨ ∃ rd, r = some rd ∧ rd.alive = false) :
    start_reading r s = (s, [], none) ∧ stop_reading r s = (s, [], none) := by
  rcases h with rfl | ⟨rd, rfl, hdead⟩
  · exact ⟨rfl, rfl⟩
  · simp [start_reading, stop_reading, hdead]

/-- Witness for C4 with no session at all. -/
theorem c4_witness :
    ((none : Option Reader) = none ∨
      ∃ rd, (none : Option Reader) = some rd ∧ rd.alive = false) ∧
    start_reading none initState = (initState, [], none) :=
  ⟨Or.inl rfl, (c4_amended none initState (Or.inl rfl)).1⟩

/-- One `user_interface` iteration on an unrecognized command: error notice,
no state change, and the loop goes on with the rest of the input. -/
theorem ui_unknown_step (r : Option Reader) (s : DedupState) (c : String)
    (cs : List String)
    (hunk : normalizeCmd c ∉ (["start", "stop", "clear", "state", "exit"] : List String)) :
    user_interface r s (c :: cs)
      = ⟨(user_interface r s cs).state,
         (promptEff :: [Eff.printMsg "❓ Unknown command."])
           ++ (user_interface r s cs).effs,
         (user_interface r s cs).exited, (user_interface r s cs).err⟩ := by
  simp only [List.mem_cons, List.not_mem_nil, or_false] at hunk
  push_neg at hunk
  obtain ⟨h1, h2, h3, h4, h5⟩ := hunk
  simp only [user_interface, if_neg h1, if_neg h2, if_neg h3, if_neg h4, if_neg h5]

/-- One `user_interface` iteration on `clear`: dispatches to `clear_tag_data`. -/
theorem ui_clear_step (r : Option Reader) (s : DedupState) (cs : List String) :
    user_interface r s ("clear" :: cs)
      = ⟨(user_interface r (clear_tag_data s) cs).state,
         (promptEff :: [Eff.printMsg clearMsg])
           ++ (user_interface r (clear_tag_data s) cs).effs,
         (user_interface r (clear_tag_data s) cs).exited,
         (user_interface r (clear_tag_data s) cs).err⟩ := by
  simp only [user_interface,
    if_neg (by decide : ¬(normalizeCmd "clear" = "start")),
    if_neg (by decide : ¬(normalizeCmd "clear" = "stop")),
    if_pos (by decide : normalizeCmd "clear" = "clear")]

/-- One `user_interface` iteration on `state`: dispatches to
`print_reader_state` and changes no dedup state. -/
theorem ui_state_step (r : Option Reader) (s : DedupState) (cs : List String) :
    user_interface r s ("state" :: cs)
      = ⟨(user_interface r s cs).state,
         (promptEff :: print_reader_state r) ++ (user_interface r s cs).effs,
         (user_interface r s cs).exited, (user_interface r s cs).err⟩ := by
  simp only [user_interface,
    if_neg (by decide : ¬(normalizeCmd "state" = "start")),
    if_neg (by decide : ¬(normalizeCmd "state" = "stop")),
    if_neg (by decide : ¬(normalizeCmd "state" = "clear")),
    if_pos (by decide : normalizeCmd "state" = "state")]

/-- One `user_interface` iteration on `start` with an alive, non-raising
driver: clears the tag data, starts inventory, and continues. -/
theorem ui_start_step (rd : Reader) (s : DedupState) (cs : List String)
    (halive : rd.alive = true) (hstart : rd.startRaises = false) :
    user_interface (some rd) s ("start" :: cs)
      = ⟨(user_interface (some rd) (clear_tag_data s) cs).state,
         (promptEff :: [Eff.printMsg clearMsg, Eff.callStartInventory,
            Eff.printMsg "📡 Started inventory."])
           ++ (user_interface (some rd) (clear_tag_data s) cs).effs,
         (user_interface (some rd) (clear_tag_data s) cs).exited,
         (user_interface (some rd) (clear_tag_data s) cs).err⟩ := by
  have hsr : start_reading (some rd) s
      = (clear_tag_data s,
         [Eff.printMsg clearMsg, Eff.callStartInventory,
          Eff.printMsg "📡 Started inventory."], none) := by
    simp [start_reading, halive, hstart]
  simp only [user_interface, if_pos (by decide : normalizeCmd "start" = "start"), hsr]

/-- One `user_interface` iteration on `stop` with an alive, non-raising
driver: politely stops inventory, dedup state untouched, and continues. -/
theorem ui_stop_step (rd : Reader) (s : DedupState) (cs : List String)
    (halive : rd.alive = true) (hstop : rd.stopRaises = false) :
    user_interface (some rd) s ("stop" :: cs)
      = ⟨(user_interface (some rd) s cs).state,
         (promptEff :: [Eff.callStopPolitely, Eff.printMsg "🛑 Stopped inventory."])
           ++ (user_interface (some rd) s cs).effs,
         (user_interface (some rd) s cs).exited,
         (user_interface (some rd) s cs).err⟩ := by
  have hsr : stop_reading (some rd) s
      = (s, [Eff.callStopPolitely, Eff.printMsg "🛑 Stopped inventory."], none) := by
    simp [stop_reading, halive, hstop]
  simp only [user_interface,
    if_neg (by decide : ¬(normalizeCmd "stop" = "start")),
    if_pos (by decide : normalizeCmd "stop" = "stop"), hsr]

/-- One `user_interface` iteration on `exit` with an alive, non-raising
driver: politely stops inventory and leaves the loop; no disconnect happens
inside the loop. -/
theorem ui_exit_step (rd : Reader) (s : DedupState) (cs : List String)
    (halive : rd.alive = true) (hstop : rd.stopRaises = false) :
    user_interface (some rd) s ("exit" :: cs)
      = ⟨s, [promptEff, Eff.callStopPolitely, Eff.printMsg "🛑 Stopped inventory."],
         true, none⟩ := by
  have hsr : stop_reading (some rd) s
      = (s, [Eff.callStopPolitely, Eff.printMsg "🛑 Stopped inventory."], none) := by
    simp [stop_reading, halive, hstop]
  simp only [user_interface,
    if_neg (by decide : ¬(normalizeCmd "exit" = "start")),
    if_neg (by decide : ¬(normalizeCmd "exit" = "stop")),
    if_neg (by decide : ¬(normalizeCmd "exit" = "clear")),
    if_neg (by decide : ¬(normalizeCmd "exit" = "state")),
    if_pos (by decide : normalizeCmd "exit" = "exit"), hsr]

/-- C8 counterexample: on the `exit` command the dispatch loop terminates
(through the exit branch) but its trace contains no driver disconnect — the
disconnect of lines 194-196 happens in `main`, after the loop has returned,
contrary to the claim that exit performs it before the loop terminates. -/
theorem c8_counterexample :
    (user_interface (some rdOK) initState ["exit"]).exited = true ∧
    Eff.callDisconnect ∉ (user_interface (some rdOK) initState ["exit"]).effs := by
  decide

/-- C8 (amended): each of start, stop, clear, state dispatches to the
corresponding lifecycle operation; unknown input prints an error notice,
changes no dedup state and reprompts; `exit` performs a polite inventory stop
and then terminates the dispatch loop — the driver disconnect is not part of
the loop: it is performed (preceded by a second polite stop) by `main`'s
graceful-shutdown block after the loop has returned. -/
theorem c8_amended (rd : Reader) (s : DedupState) (c : String) (cs : List String)
    (halive : rd.alive = true) (hstart : rd.startRaises = false)
    (hstop : rd.stopRaises = false)
    (hunk : normalizeCmd c ∉ (["start", "stop", "clear", "state", "exit"] : List String)) :
    ((user_interface (some rd) s (c :: cs)).state = (user_interface (some rd) s cs).state ∧
     (user_interface (some rd) s (c :: cs)).effs
       = promptEff :: Eff.printMsg "❓ Unknown command." :: (user_interface (some rd) s cs).effs) ∧
    (user_interface (some rd) s ("start" :: cs)).state
      = (user_interface (some rd) (clear_tag_data s) cs).state ∧
    Eff.callStartInventory ∈ (user_interface (some rd) s ("start" :: cs)).effs ∧
    (user_interface (some rd) s ("stop" :: cs)).state = (user_interface (some rd) s cs).state ∧
    Eff.callStopPolitely ∈ (user_interface (some rd) s ("stop" :: cs)).effs ∧
    (user_interface (some rd) s ("clear" :: cs)).state
      = (user_interface (some rd) (clear_tag_data s) cs).state ∧
    (user_interface (some rd) s ("state" :: cs)).effs
      = (promptEff :: print_reader_state (some rd)) ++ (user_interface (some rd) s cs).effs ∧
    user_interface (some rd) s ("exit" :: cs)
      = ⟨s, [promptEff, Eff.callStopPolitely, Eff.printMsg "🛑 Stopped inventory."],
         true, none⟩ ∧
    (main_after_connect (some rd) s ("exit" :: cs)).2.1
      = [promptEff, Eff.callStopPolitely, Eff.printMsg "🛑 Stopped inventory."]
          ++ [Eff.callStopPolitely, Eff.callDisconnect,
              Eff.printMsg "👋 Reader disconnected. Exiting..."] := by
  have hu := ui_unknown_step (some rd) s c cs hunk
  have hst := ui_start_step rd s cs halive hstart
  have hsp := ui_stop_step rd s cs halive hstop
  have hcl := ui_clear_step (some rd) s cs
  have hse := ui_state_step (some rd) s cs
  have hex := ui_exit_step rd s cs halive hstop
  refine ⟨⟨?_, ?_⟩, ?_, ?_, ?_, ?_, ?_, ?_, hex, ?_⟩
  · rw [hu]
  · rw [hu]
    rfl
  · rw [hst]
  · rw [hst]
    simp
  · rw [hsp]
  · rw [hsp]
    simp
  · rw [hcl]
  · rw [hse]
  · simp [main_after_connect, hex, main_shutdown, halive, hstop]

/-- Witness for C8 at a concrete alive, non-raising driver. -/
theorem c8_witness :
    rdOK.alive = true ∧ rdOK.startRaises = false ∧ rdOK.stopRaises = false ∧
    normalizeCmd "bogus" ∉ (["start", "stop", "clear", "state", "exit"] : List String) ∧
    user_interface (some rdOK) initState ["exit"]
      = ⟨initState,
         [promptEff, Eff.callStopPolitely, Eff.printMsg "🛑 Stopped inventory."],
         true, none⟩ :=
  ⟨rfl, rfl, rfl, by decide,
   (c8_amended rdOK initState "bogus" [] rfl rfl rfl (by decide)).2.2.2.2.2.2.2.1⟩

/-- A raw tag report entry as delivered by sllurp to `tag_report_cb`: a dict
whose "EPC" key (raw bytes) may be missing and whose optional attributes
ChannelIndex, LastSeenTimestampUTC, TagSeenCount are read with `.get`. -/
structure RawTag where
  epcField : Option (List Nat)
  channel : Option Nat
  lastSeen : Option Nat
  seenCount : Option Nat
deriving DecidableEq, Repr

/-- `bytes.decode("ascii")`: succeeds iff every byte is below 128. -/
def decodeAscii (bs : List Nat) : Option String :=
  if bs.all (fun b => decide (b < 128)) then some (String.mk (bs.map Char.ofNat))
  else none

/-- The body of the per-tag try block of `tag_report_cb` (lines 36-43):
`tag["EPC"]` raises KeyError when the key is missing, `.decode("ascii")`
raises UnicodeDecodeError on non-ASCII bytes; `none` is the exception path.
The three optional attributes are read with `tag.get` and default to None. -/
def parseTag (t : RawTag) : Option TagRecord :=
  match t.epcField with
  | none => none
  | some bs =>
    match decodeAscii bs with
    | none => none
    | some e => some ⟨e, t.channel, t.lastSeen, t.seenCount⟩

def parseWarn : String := "⚠️ Error parsing tag"

/-- `tag_report_cb` (lines 33-45): iterate over the batch; a tag that parses
is enqueued to TAG_QUEUE (first component, in batch order); a tag whose
parsing raises is skipped with a warning print (second component) and the
loop continues with the rest of the batch. -/
def tag_report_cb : List RawTag → List TagRecord × List String
  | [] => ([], [])
  | t :: ts =>
    let p := tag_report_cb ts
    match parseTag t with
    | some r => (r :: p.1, p.2)
    | none => (p.1, parseWarn :: p.2)

/-- The per-record body of `process_tags_console` (lines 87-93): offer the
dequeued record; on acceptance print the new-tag header and the notification
line with EPC, channel, seen-count and timestamp. -/
def process_tags_console_step (C : Nat) (s : DedupState) (t : TagRecord) :
    DedupState × List Eff :=
  match offer C s t with
  | (OfferResult.accepted, s1) => (s1, [Eff.printMsg "📦 New tag:", Eff.notifyLine t])
  | (OfferResult.duplicate, s1) => (s1, [])

/-- C9: parsing failures in the driver callback are isolated per tag — a tag
with a missing EPC key or a non-ASCII EPC fails to parse, is skipped with one
warning and is not enqueued, while every other tag of the same batch (before
and after it) is still enqueued in order. -/
theorem c9_per_tag_isolation (pre post : List RawTag) (t : RawTag)
    (hbad : parseTag t = none) :
    (∀ u : RawTag, u.epcField = none → parseTag u = none) ∧
    (∀ (u : RawTag) (bs : List Nat), u.epcField = some bs → decodeAscii bs = none →
      parseTag u = none) ∧
    tag_report_cb (pre ++ t :: post)
      = ((tag_report_cb pre).1 ++ (tag_report_cb post).1,
         (tag_report_cb pre).2 ++ parseWarn :: (tag_report_cb post).2) := by
  refine ⟨?_, ?_, ?_⟩
  · intro u hu
    simp [parseTag, hu]
  · intro u bs hu hb
    simp [parseTag, hu, hb]
  · induction pre with
    | nil => simp [tag_report_cb, hbad]
    | cons u us ih =>
      cases h : parseTag u with
      | some r => simp [tag_report_cb, h, ih]
      | none => simp [tag_report_cb, h, ih]

def rawGood1 : RawTag := ⟨some [65], some 1, some 5, some 2⟩
def rawBadMissing : RawTag := ⟨none, some 1, some 5, some 2⟩
def rawGood2 : RawTag := ⟨some [66], none, none, none⟩

/-- Witness for C9: a batch good-bad-good enqueues exactly the two good tags
and records exactly one warning, in order. -/
theorem c9_witness :
    parseTag rawBadMissing = none ∧
    tag_report_cb [rawGood1, rawBadMissing, rawGood2]
      = ((tag_report_cb [rawGood1]).1 ++ (tag_report_cb [rawGood2]).1,
         (tag_report_cb [rawGood1]).2 ++ parseWarn :: (tag_report_cb [rawGood2]).2) :=
  ⟨by decide, (c9_per_tag_isolation [rawGood1] [rawGood2] rawBadMissing (by decide)).2.2⟩

/-- C10: a raw report with a decodable EPC but absent optional attributes is
not malformed: it parses with the missing attributes as None, is enqueued
without a warning, and (when its EPC is new) is accepted and displayed like
any other record. -/
theorem c10_optional_attrs (bs : List Nat) (ch ls sc : Option Nat) (l : List RawTag)
    (C : Nat) (s : DedupState)
    (hdec : bs.all (fun b => decide (b < 128)) = true)
    (hnew : String.mk (bs.map Char.ofNat) ∉ s.seen_epcs) :
    parseTag ⟨some bs, ch, ls, sc⟩ = some ⟨String.mk (bs.map Char.ofNat), ch, ls, sc⟩ ∧
    (tag_report_cb (⟨some bs, ch, ls, sc⟩ :: l)).1
      = ⟨String.mk (bs.map Char.ofNat), ch, ls, sc⟩ :: (tag_report_cb l).1 ∧
    (tag_report_cb (⟨some bs, ch, ls, sc⟩ :: l)).2 = (tag_report_cb l).2 ∧
    (offer C s ⟨String.mk (bs.map Char.ofNat), ch, ls, sc⟩).1 = OfferResult.accepted ∧
    process_tags_console_step C s ⟨String.mk (bs.map Char.ofNat), ch, ls, sc⟩
      = ((offer C s ⟨String.mk (bs.map Char.ofNat), ch, ls, sc⟩).2,
         [Eff.printMsg "📦 New tag:",
          Eff.notifyLine ⟨String.mk (bs.map Char.ofNat), ch, ls, sc⟩]) := by
  have hp : parseTag ⟨some bs, ch, ls, sc⟩
      = some ⟨String.mk (bs.map Char.ofNat), ch, ls, sc⟩ := by
    simp [parseTag, decodeAscii, hdec]
  have ha := offer_acc C s ⟨String.mk (bs.map Char.ofNat), ch, ls, sc⟩ hnew
  refine ⟨hp, ?_, ?_, ?_, ?_⟩
  · simp [tag_report_cb, hp]
  · simp [tag_report_cb, hp]
  · rw [ha]
  · rw [process_tags_console_step, ha]

/-- Witness for C10 with the one-byte EPC "A" and all attributes absent. -/
theorem c10_witness :
    (([65] : List Nat).all (fun b => decide (b < 128)) = true) ∧
    String.mk (([65] : List Nat).map Char.ofNat) ∉ initState.seen_epcs ∧
    parseTag ⟨some [65], none, none, none⟩
      = some ⟨String.mk (([65] : List Nat).map Char.ofNat), none, none, none⟩ :=
  ⟨by decide, by decide,
   (c10_optional_attrs [65] none none none [] 100 initState (by decide) (by decide)).1⟩

end RFIDReader
